import Mathlib

/-!
Verification of the NFSU Goa student-house dashboard (`app.py`).

The development shallowly embeds the Python source:

* a pandas row becomes a `Row` record (known identity columns plus an
  `other` field for the remaining columns, and an optional `House` cell);
* the mutable `global_house_counts` defaultdict becomes an explicit
  `Counts` function threaded through in state-passing style, with missing
  entries reading as `0` exactly as `defaultdict(int)` does;
* `random.shuffle` becomes a `shuffle` oracle parameter; theorems that need
  it assume only that the oracle returns a permutation of its input;
* the stable Python `sorted` becomes `List.mergeSort`;
* the Streamlit pages become functions from the widget inputs to an
  outcome value describing what the page renders.
-/

namespace NfsuGoa

/-- One row of the combined student table: the identity columns used by the
assignment and export logic, every remaining column collected in `other`,
and the `House` cell (`none` while unassigned, mirroring `None`/NaN). -/
structure Row where
  enrollment : String
  studentName : String
  gender : String
  stream : String
  semester : String
  house : Option String := none
  other : List (String × String) := []
deriving DecidableEq, Repr, Inhabited

/-- The grouping key of `df.groupby(["Stream", "Semester", "Gender"])`. -/
abbrev Key := String × String × String

/-- The `(Stream, Semester, Gender)` key of a row. -/
def rowKey (r : Row) : Key := (r.stream, r.semester, r.gender)

/-- The `HOUSE_COLORS` configuration dict, in insertion order. -/
def HOUSE_COLORS : List (String × String) :=
  [("House A", "#FF9999"),
   ("House B", "#99CCFF"),
   ("House C", "#99FF99"),
   ("House D", "#FFCC99")]

/-- The keys of `HOUSE_COLORS` in the fixed dict iteration order. -/
def houses : List String := HOUSE_COLORS.map Prod.fst

/-- The counters `global_house_counts`: per-gender, per-house running assignment counts
(`defaultdict(int)` read through a total function, absent entries are 0). -/
abbrev Counts := String → String → Nat

/-- The increment `global_house_counts[gender][house] += 1`. -/
def bump (c : Counts) (g h : String) : Counts :=
  fun g' h' => if g' = g ∧ h' = h then c g' h' + 1 else c g' h'

/-- The order `sorted(HOUSE_COLORS.keys(), key=...counts[gender][h])` of the source:
a stable sort of the palette by the current counters of the gender. -/
def houseOrder (c : Counts) (g : String) : List String :=
  houses.mergeSort (fun a b => decide (c g a ≤ c g b))

/-- The cycle `house_cycle = house_order * ((len(students) // 4) + 1)`. -/
def houseCycle (c : Counts) (g : String) (n : Nat) : List String :=
  (List.replicate (n / 4 + 1) (houseOrder c g)).flatten

/-- The inner loop `for i, idx in enumerate(students)` of `assign_houses`:
writes `house_cycle[i % 4]` into the House cell of row `idx` and bumps the
counter of that gender and house.  The assignment map `m` is the House
column of `assigned_df`. -/
def assignLoop (g : String) (cycle : List String) :
    List Nat → Nat → (Nat → Option String) → Counts → (Nat → Option String) × Counts
  | [], _, m, c => (m, c)
  | idx :: rest, i, m, c =>
    let h := cycle.getD (i % 4) ""
    assignLoop g cycle rest (i + 1) (fun j => if j = idx then some h else m j) (bump c g h)

/-- One `(stream, sem, gender)` iteration of the groupby loop: the house
order and cycle are computed once from the counters at group entry, then
the shuffled students are assigned in sequence. -/
def assignGroup (g : String) (students : List Nat) (m : Nat → Option String) (c : Counts) :
    (Nat → Option String) × Counts :=
  assignLoop g (houseCycle c g students.length) students 0 m c

/-- Row positions of the group with key `k`, in original table order
(the index of `group_df` inside `df.groupby(...)`). -/
def groupIndices (df : List Row) (k : Key) : List Nat :=
  (List.range df.length).filter (fun i => decide (rowKey (df.getD i default) = k))

/-- Lexicographic comparison of grouping keys, as pandas orders the tuples
produced by `groupby`. -/
def keyLe (a b : Key) : Bool :=
  decide (a.1 < b.1) ||
    (decide (a.1 = b.1) &&
      (decide (a.2.1 < b.2.1) || (decide (a.2.1 = b.2.1) && decide (a.2.2 ≤ b.2.2))))

/-- The distinct group keys of the table, in the sorted order `groupby`
iterates them. -/
def groupKeys (df : List Row) : List Key :=
  ((df.map rowKey).dedup).mergeSort keyLe

/-- The groupby loop of `assign_houses`, one `assignGroup` per key. -/
def assignGroups (df : List Row) (shuffle : Key → List Nat → List Nat) :
    List Key → (Nat → Option String) → Counts → (Nat → Option String) × Counts
  | [], m, c => (m, c)
  | k :: ks, m, c =>
    let p := assignGroup k.2.2 (shuffle k (groupIndices df k)) m c
    assignGroups df shuffle ks p.1 p.2

/-- The function `assign_houses(df, global_house_counts)`: copies the table, blanks the
House column (`assigned_df["House"] = None`), runs the groupby loop with
the shuffle oracle standing in for `random.shuffle`, and returns the
assigned copy together with the updated counters. -/
def assign_houses (df : List Row) (shuffle : Key → List Nat → List Nat) (c : Counts) :
    List Row × Counts :=
  let p := assignGroups df shuffle (groupKeys df) (fun _ => none) c
  (df.mapIdx (fun i r => { r with house := p.1 i }), p.2)

/-- The fixed reference secret of `verify_password`. -/
def correct_password : String := "nfsu@123"

/-- The gate `verify_password()`, as a function of the entered text.  Returns
`(granted, errorShown)`: `granted` is the boolean result, `errorShown`
records whether the `st.sidebar.error` branch ran. -/
def verify_password (password : String) : Bool × Bool :=
  if password = correct_password then (true, false)
  else if password ≠ "" then (false, true)
  else (false, false)

/-- The row-filtering part of `view_data_page`: each multiselect filters by
membership only when the Python list is truthy (non-empty). -/
def view_data_page (df : List Row) (selStreams selSems selGenders : List String) : List Row :=
  let f1 := if selStreams = [] then df else df.filter (fun r => decide (r.stream ∈ selStreams))
  let f2 := if selSems = [] then f1 else f1.filter (fun r => decide (r.semester ∈ selSems))
  if selGenders = [] then f2 else f2.filter (fun r => decide (r.gender ∈ selGenders))

/-- One exported record: the fixed `display_cols` projection
`["Enrollment No", "Student Name", "Gender", "Stream", "Semester", "House"]`. -/
structure ExportRow where
  enrollment : String
  studentName : String
  gender : String
  stream : String
  semester : String
  house : Option String
deriving DecidableEq, Repr

/-- The projection `gender_df[display_cols]` applied to one row. -/
def displayRow (r : Row) : ExportRow :=
  ⟨r.enrollment, r.studentName, r.gender, r.stream, r.semester, r.house⟩

/-- Ordering on House cells used by `sort_values("House")`: string order on
labels, missing values last. -/
def houseLe : Option String → Option String → Bool
  | none, none => true
  | none, some _ => false
  | some _, none => true
  | some a, some b => decide (a ≤ b)

/-- Row comparison of `export_df.sort_values("House")`. -/
def exportLe (a b : ExportRow) : Bool := houseLe a.house b.house

/-- The list `sorted(df["Stream"].unique())`. -/
def streamsSorted (df : List Row) : List String :=
  ((df.map Row.stream).dedup).mergeSort (fun a b => decide (a ≤ b))

/-- The sheet name: the stream truncated to 25 codepoints, a dash, the
gender truncated to 5 codepoints, as the f-string in the source builds it
(Python slices count codepoints). -/
def sheetName (stream gender : String) : String :=
  String.mk (stream.toList.take 25) ++ "-" ++ String.mk (gender.toList.take 5)

/-- The fixed gender loop `for gender in ["M", "F"]`. -/
def genderTabs : List String := ["M", "F"]

/-- The exporter `get_excel_download(df)`: the workbook as a list of
(sheet name, sheet rows) in the order the sheets are written; empty
`(stream, gender)` combinations are skipped. -/
def get_excel_download (df : List Row) : List (String × List ExportRow) :=
  (streamsSorted df).flatMap (fun s =>
    genderTabs.filterMap (fun g =>
      let gdf := df.filter (fun r => decide (r.stream = s) && decide (r.gender = g))
      if gdf.isEmpty then none
      else some (sheetName s g, (gdf.map displayRow).mergeSort exportLe)))

/-- Re-reading the workbook: the (enrollment, house) cells of every sheet,
concatenated in sheet order. -/
def readPairs (wb : List (String × List ExportRow)) : List (String × Option String) :=
  wb.flatMap (fun sheet => sheet.2.map (fun er => (er.enrollment, er.house)))

/-- The in-memory (enrollment, house) mapping of a table. -/
def tablePairs (df : List Row) : List (String × Option String) :=
  df.map (fun r => (r.enrollment, r.house))

/-- A loaded table: its column names together with its rows. -/
structure Table where
  cols : List String
  rows : List Row

/-- The set `required_cols` of `main`. -/
def required_cols : List String :=
  ["Enrollment No", "Stream", "Student Name", "Gender", "Semester"]

/-- What `main` renders, as a function of its environment. -/
inductive MainOutcome
  | errorDirMissing
  | errorMissingCols
  | pageHouseDistribution
  | pageVisualize
  | pageViewData
  | accessDenied
  | noPage
deriving DecidableEq, Repr

/-- The control flow of `main()`: the directory guard, the required-column
guard, then the sidebar menu dispatch (View Data gated by the password). -/
def mainOutcome (dirExists : Bool) (df : Table) (menu : String) (password : String) :
    MainOutcome :=
  if ¬ dirExists then .errorDirMissing
  else if ¬ (required_cols.all (fun c => decide (c ∈ df.cols))) then .errorMissingCols
  else if menu = "House Distribution" then .pageHouseDistribution
  else if menu = "Visualize" then .pageVisualize
  else if menu = "View Data" then
    if (verify_password password).1 then .pageViewData else .accessDenied
  else .noPage

/-- What `visualize_page` renders. -/
inductive VizOutcome
  | missingHouse
  | noData
  | charts
deriving DecidableEq, Repr

/-- The assignment at the table level: `assigned_df["House"] = None`
creates the House column on the copy, so the result always carries it. -/
def assignHousesTable (t : Table) (shuffle : Key → List Nat → List Nat) (c : Counts) :
    Table × Counts :=
  let p := assign_houses t.rows shuffle c
  (⟨if "House" ∈ t.cols then t.cols else t.cols ++ ["House"], p.1⟩, p.2)

/-- The page `visualize_page(df)`: the missing-House guard, then the gender and
stream filters, then the empty-data guard, else the three charts. -/
def visualize_page (t : Table) (genderFilter : String) (selStreams : List String) :
    VizOutcome :=
  if ¬ ("House" ∈ t.cols) then .missingHouse
  else
    let v1 := if genderFilter ≠ "All" then t.rows.filter (fun r => decide (r.gender = genderFilter)) else t.rows
    let v2 := if selStreams = [] then v1 else v1.filter (fun r => decide (r.stream ∈ selStreams))
    if v2.isEmpty then .noData else .charts

/-- The table that the Visualize branch of `main` passes to `visualize_page`:
`assign_houses` applied to the loaded table with freshly zeroed counters. -/
def mainVisualizeInput (df : Table) (shuffle : Key → List Nat → List Nat) : Table :=
  (assignHousesTable df shuffle (fun _ _ => 0)).1

/-! ### Observation helpers and concrete data for witnesses -/

/-- Erase the House cell: what remains of a row outside the House column. -/
def eraseHouse (r : Row) : Row := { r with house := none }

/-- Number of positions in `l` whose House cell under the assignment map `m`
is `some hh`. -/
def countAssigned (m : Nat → Option String) (l : List Nat) (hh : String) : Nat :=
  (l.filter (fun j => decide (m j = some hh))).length

/-- Number of rows of `out` that belong to group `k` and were assigned
house `hh`. -/
def groupHouseCount (out : List Row) (k : Key) (hh : String) : Nat :=
  (out.filter (fun r => decide (rowKey r = k ∧ r.house = some hh))).length

/-- The identity shuffle oracle: one admissible behaviour of
`random.shuffle`. -/
def idShuffle : Key → List Nat → List Nat := fun _ l => l

/-- Freshly initialised counters, as `defaultdict(int)` starts. -/
def zeroCounts : Counts := fun _ _ => 0

/-- A concrete student row. -/
def sampleRow (e g s sem : String) : Row :=
  { enrollment := e, studentName := "Student " ++ e, gender := g, stream := s, semester := sem }

/-- A small concrete student table used by the witness theorems. -/
def sampleDf : List Row :=
  [sampleRow "E1" "M" "CS" "1", sampleRow "E2" "M" "CS" "1", sampleRow "E3" "M" "CS" "1",
   sampleRow "E4" "F" "CS" "1", sampleRow "E5" "M" "CS" "2"]

/-- A one-row assigned table whose gender is neither `"M"` nor `"F"`. -/
def strayDf : List Row :=
  [{ enrollment := "E9", studentName := "Stray", gender := "X", stream := "CS",
     semester := "1", house := some "House A" }]

/-! ### Generic helper lemmas -/

/-- Rewriting `mapIdx` as a map over row positions. -/
theorem mapIdx_eq_range_map (f : Nat → Row → Row) (l : List Row) :
    List.mapIdx f l = (List.range l.length).map (fun i => f i (l.getD i default)) := by
  induction l generalizing f with
  | nil => simp
  | cons r tl ih =>
    rw [List.mapIdx_cons, ih (fun i => f (i + 1)), List.length_cons,
      List.range_succ_eq_map, List.map_cons, List.map_map]
    simp [Function.comp, List.getD_cons_succ]

/-- A truthiness-guarded filter is a single membership-style filter. -/
theorem ite_filter_eq (l : List Row) (sel : List String) (p : Row → Prop) [DecidablePred p] :
    (if sel = [] then l else l.filter (fun r => decide (p r))) =
      l.filter (fun r => decide (sel = [] ∨ p r)) := by
  by_cases h : sel = [] <;> simp [h]

/-- An `if` is equal to one of its branches. -/
theorem ite_eq_or {α : Type} {c : Prop} [Decidable c] (a b : α) :
    (if c then a else b) = a ∨ (if c then a else b) = b := by
  by_cases h : c <;> simp [h]

/-! ### C6: the access gate -/

/-- C6: the access gate grants access exactly when the entered string is
the fixed reference password; any non-empty mismatch is denied with the
inline error shown; the empty input is denied with no error shown. -/
theorem verify_password_spec (password : String) :
    ((verify_password password).1 = true ↔ password = correct_password) ∧
    ((verify_password password).2 = true ↔ password ≠ correct_password ∧ password ≠ "") := by
  by_cases h2 : password = ""
  · subst h2
    decide
  · by_cases h1 : password = correct_password <;> simp [verify_password, h1, h2]

/-! ### C5: the fatal error cases of `main` -/

/-- C5: `main` halts with an inline error exactly when the data directory
is missing or some required identity column is absent from the loaded
table; in every other environment it dispatches to a page (or the access
gate), so no error outcome is produced. -/
theorem main_error_cases (dirExists : Bool) (df : Table) (menu password : String) :
    (mainOutcome dirExists df menu password = MainOutcome.errorDirMissing ∨
      mainOutcome dirExists df menu password = MainOutcome.errorMissingCols) ↔
    (dirExists = false ∨ ∃ col ∈ required_cols, col ∉ df.cols) := by
  unfold mainOutcome
  cases dirExists with
  | false => simp
  | true =>
    by_cases hc : required_cols.all (fun c => decide (c ∈ df.cols))
    · have hno : ¬ ∃ col ∈ required_cols, col ∉ df.cols := by
        simp only [List.all_eq_true, decide_eq_true_eq] at hc
        push_neg
        exact hc
      simp only [hc, not_true, not_false_eq_true, if_false]
      split_ifs <;> simp [hno]
    · have hyes : ∃ col ∈ required_cols, col ∉ df.cols := by
        simp only [List.all_eq_true, decide_eq_true_eq] at hc
        push_neg at hc
        exact hc
      simp [hc, hyes]

/-! ### C7: the raw-view filters -/

/-- C7: on the raw-view page an empty multiselect leaves its dimension
unfiltered and a non-empty one keeps exactly the rows whose value lies in
the selection: the displayed rows are exactly those passing every
membership test of every non-empty dimension. -/
theorem view_data_page_filter_spec (df : List Row) (selStreams selSems selGenders : List String) :
    view_data_page df selStreams selSems selGenders =
      df.filter (fun r =>
        decide ((selStreams = [] ∨ r.stream ∈ selStreams) ∧
          (selSems = [] ∨ r.semester ∈ selSems) ∧
          (selGenders = [] ∨ r.gender ∈ selGenders))) := by
  show (if selGenders = [] then _ else _) = _
  rw [ite_filter_eq _ selGenders (fun r => r.gender ∈ selGenders),
    ite_filter_eq _ selSems (fun r => r.semester ∈ selSems),
    ite_filter_eq df selStreams (fun r => r.stream ∈ selStreams),
    List.filter_filter, List.filter_filter]
  apply List.filter_congr
  intro x _
  by_cases hA : selStreams = [] ∨ x.stream ∈ selStreams <;>
    by_cases hB : selSems = [] ∨ x.semester ∈ selSems <;>
    by_cases hC : selGenders = [] ∨ x.gender ∈ selGenders <;> simp [hA, hB, hC]

/-- Witness for C6 at a concrete non-empty wrong password. -/
theorem verify_password_spec_witness :
    ((verify_password "guess").1 = true ↔ "guess" = correct_password) ∧
    ((verify_password "guess").2 = true ↔ "guess" ≠ correct_password ∧ "guess" ≠ "") :=
  verify_password_spec "guess"

/-- Witness for C5 at a concrete environment with a missing directory. -/
theorem main_error_cases_witness :
    (mainOutcome false ⟨["Enrollment No"], []⟩ "Visualize" "pw" = MainOutcome.errorDirMissing ∨
      mainOutcome false ⟨["Enrollment No"], []⟩ "Visualize" "pw" = MainOutcome.errorMissingCols) ↔
    (false = false ∨ ∃ col ∈ required_cols, col ∉ (Table.mk ["Enrollment No"] []).cols) :=
  main_error_cases false ⟨["Enrollment No"], []⟩ "Visualize" "pw"

/-- Witness for C7 at a concrete table and selections. -/
theorem view_data_page_filter_spec_witness :
    view_data_page sampleDf ["CS"] [] ["F"] =
      sampleDf.filter (fun r =>
        decide (((["CS"] : List String) = [] ∨ r.stream ∈ (["CS"] : List String)) ∧
          (([] : List String) = [] ∨ r.semester ∈ ([] : List String)) ∧
          ((["F"] : List String) = [] ∨ r.gender ∈ (["F"] : List String)))) :=
  view_data_page_filter_spec sampleDf ["CS"] [] ["F"]

/-! ### C10: the Visualize path always carries a House column -/

/-- C10: the table that the Visualize branch of `main` passes to `visualize_page` is
the output of `assign_houses`, which always carries the House column; the
page therefore never takes the missing-House warning branch and renders
either the no-data warning or the charts. -/
theorem visualize_page_house_present (df : Table) (shuffle : Key → List Nat → List Nat)
    (genderFilter : String) (selStreams : List String) :
    visualize_page (mainVisualizeInput df shuffle) genderFilter selStreams = VizOutcome.noData ∨
    visualize_page (mainVisualizeInput df shuffle) genderFilter selStreams = VizOutcome.charts := by
  unfold visualize_page mainVisualizeInput assignHousesTable
  dsimp only
  have hmem : "House" ∈ (if "House" ∈ df.cols then df.cols else df.cols ++ ["House"]) := by
    split <;> simp [*]
  rw [if_neg (fun hno => hno hmem)]
  exact ite_eq_or _ _

/-- Witness for C10 at a concrete loaded table without a House column. -/
theorem visualize_page_house_present_witness :
    visualize_page (mainVisualizeInput ⟨["Enrollment No"], sampleDf⟩ idShuffle) "All" [] =
        VizOutcome.noData ∨
    visualize_page (mainVisualizeInput ⟨["Enrollment No"], sampleDf⟩ idShuffle) "All" [] =
        VizOutcome.charts :=
  visualize_page_house_present ⟨["Enrollment No"], sampleDf⟩ idShuffle "All" []

/-! ### C9: `assign_houses` frames everything but the House column -/

/-- C9: `assign_houses` does not mutate its input: it returns a copy of the
same length in which every column other than House is unchanged row by
row; the only other effect is the returned (updated) counters, mirroring
the mutation of the supplied counter object. -/
theorem assign_houses_frame (df : List Row) (shuffle : Key → List Nat → List Nat)
    (c : Counts) (i : Nat) (hi : i < df.length) :
    (assign_houses df shuffle c).1.length = df.length ∧
    eraseHouse ((assign_houses df shuffle c).1.getD i default) =
      eraseHouse (df.getD i default) := by
  simp only [assign_houses]
  constructor
  · simp [List.length_mapIdx]
  · have hlen : i < (List.mapIdx
        (fun i r => { r with house := (assignGroups df shuffle (groupKeys df)
          (fun _ => none) c).1 i }) df).length := by
      simpa [List.length_mapIdx] using hi
    rw [List.getD_eq_getElem _ _ hlen, List.getD_eq_getElem _ _ hi, List.getElem_mapIdx]
    simp [eraseHouse]

/-! ### Facts about the palette, the house order and the house cycle -/

theorem houses_nodup : houses.Nodup := by decide

theorem houseOrder_perm (c : Counts) (g : String) : (houseOrder c g).Perm houses :=
  List.mergeSort_perm houses _

theorem houseOrder_length (c : Counts) (g : String) : (houseOrder c g).length = 4 := by
  rw [houseOrder, List.length_mergeSort]
  rfl

theorem houseOrder_nodup (c : Counts) (g : String) : (houseOrder c g).Nodup :=
  ((houseOrder_perm c g).nodup_iff).mpr houses_nodup

theorem houseCycle_getD (c : Counts) (g : String) (n p : Nat) (hp : p < 4) :
    (houseCycle c g n).getD p "" = (houseOrder c g).getD p "" := by
  rw [houseCycle, List.replicate_succ, List.flatten_cons]
  exact List.getD_append _ _ _ _ (by rw [houseOrder_length]; exact hp)

theorem houseCycle_getD_mem (c : Counts) (g : String) (n i : Nat) :
    (houseCycle c g n).getD (i % 4) "" ∈ houses := by
  have h4 : i % 4 < 4 := Nat.mod_lt _ (by omega)
  rw [houseCycle_getD c g n _ h4]
  have hlt : i % 4 < (houseOrder c g).length := by rw [houseOrder_length]; exact h4
  rw [List.getD_eq_getElem _ _ hlt]
  exact (houseOrder_perm c g).mem_iff.mp (List.getElem_mem hlt)

/-! ### Facts about the assignment loop -/

/-- Positions outside the student list of the group keep their House cell. -/
theorem assignLoop_apply_of_not_mem (g : String) (cy : List String) (students : List Nat) :
    ∀ (i : Nat) (m : Nat → Option String) (c : Counts) (j : Nat),
    j ∉ students → (assignLoop g cy students i m c).1 j = m j := by
  induction students with
  | nil => intro i m c j _; rfl
  | cons idx rest ih =>
    intro i m c j hj
    rw [List.mem_cons, not_or] at hj
    simp only [assignLoop]
    rw [ih (i + 1) _ _ j hj.2]
    simp [hj.1]

/-- Every student in the list ends up with a House cell drawn from the
palette. -/
theorem assignLoop_apply_mem (g : String) (cy : List String)
    (hcy : ∀ i : Nat, cy.getD (i % 4) "" ∈ houses) (students : List Nat) :
    ∀ (i : Nat) (m : Nat → Option String) (c : Counts) (j : Nat), j ∈ students →
    ∃ hh ∈ houses, (assignLoop g cy students i m c).1 j = some hh := by
  induction students with
  | nil => intro _ _ _ _ h; simp at h
  | cons idx rest ih =>
    intro i m c j hj
    simp only [assignLoop]
    by_cases hjr : j ∈ rest
    · exact ih (i + 1) _ _ j hjr
    · have hji : j = idx := by
        rcases List.mem_cons.mp hj with h | h
        · exact h
        · exact absurd h hjr
      refine ⟨cy.getD (i % 4) "", hcy i, ?_⟩
      rw [assignLoop_apply_of_not_mem g cy rest _ _ _ j hjr]
      simp [hji]

/-- The loop either leaves a position alone or writes a palette house. -/
theorem assignLoop_apply_cases (g : String) (cy : List String)
    (hcy : ∀ i : Nat, cy.getD (i % 4) "" ∈ houses) (students : List Nat) :
    ∀ (i : Nat) (m : Nat → Option String) (c : Counts) (j : Nat),
    (assignLoop g cy students i m c).1 j = m j ∨
      ∃ hh ∈ houses, (assignLoop g cy students i m c).1 j = some hh := by
  induction students with
  | nil => intro i m c j; left; rfl
  | cons idx rest ih =>
    intro i m c j
    simp only [assignLoop]
    rcases ih (i + 1) (fun j' => if j' = idx then some (cy.getD (i % 4) "") else m j')
        (bump c g (cy.getD (i % 4) "")) j with h | h
    · by_cases hji : j = idx
      · right
        exact ⟨cy.getD (i % 4) "", hcy i, by rw [h]; simp [hji]⟩
      · left
        rw [h]
        simp [hji]
    · right
      exact h

/-- The `t`-th student of the loop receives `cycle[(i + t) % 4]`. -/
theorem assignLoop_apply_getD (g : String) (cy : List String) (students : List Nat) :
    ∀ (i : Nat) (m : Nat → Option String) (c : Counts) (t : Nat), students.Nodup →
    t < students.length →
    (assignLoop g cy students i m c).1 (students.getD t 0) =
      some (cy.getD ((i + t) % 4) "") := by
  induction students with
  | nil => intro _ _ _ _ _ ht; simp at ht
  | cons idx rest ih =>
    intro i m c t hnd ht
    rw [List.nodup_cons] at hnd
    simp only [assignLoop]
    cases t with
    | zero =>
      rw [List.getD_cons_zero, assignLoop_apply_of_not_mem g cy rest _ _ _ idx hnd.1]
      simp
    | succ t' =>
      rw [List.getD_cons_succ]
      rw [ih (i + 1) _ _ t' hnd.2 (by simpa using ht)]
      rw [show i + 1 + t' = i + (t' + 1) from by omega]

/-- Splitting a filtered count over `range (n + 1)` into the head and a
shifted tail. -/
theorem range_succ_filter_shift (p : Nat → Bool) (n : Nat) :
    ((List.range (n + 1)).filter p).length =
      (if p 0 then 1 else 0) + ((List.range n).filter (fun t => p (t + 1))).length := by
  rw [List.range_succ_eq_map, List.filter_cons, List.filter_map]
  have hc : List.filter (p ∘ Nat.succ) (List.range n) =
      List.filter (fun t => p (t + 1)) (List.range n) := by
    apply List.filter_congr
    intro t _
    rfl
  by_cases h0 : p 0
  · simp [h0, hc]
    omega
  · simp [h0, hc]

/-- After the loop, the counter of the gender for `hh` grew by the number of loop
positions whose cycle entry is `hh`. -/
theorem assignLoop_counts (g : String) (cy : List String) (students : List Nat) :
    ∀ (i : Nat) (m : Nat → Option String) (c : Counts) (hh : String),
    (assignLoop g cy students i m c).2 g hh =
      c g hh + ((List.range students.length).filter
        (fun t => decide (cy.getD ((i + t) % 4) "" = hh))).length := by
  induction students with
  | nil => intros; simp [assignLoop]
  | cons idx rest ih =>
    intro i m c hh
    simp only [assignLoop, List.length_cons]
    rw [ih (i + 1), range_succ_filter_shift]
    have hshift : ((List.range rest.length).filter
        (fun t => decide (cy.getD ((i + 1 + t) % 4) "" = hh))).length =
      ((List.range rest.length).filter
        (fun t => decide (cy.getD ((i + (t + 1)) % 4) "" = hh))).length := by
      congr 1
      apply List.filter_congr
      intro t _
      rw [show i + 1 + t = i + (t + 1) from by omega]
    rw [hshift]
    simp only [bump, eq_self_iff_true, true_and, Nat.add_zero, decide_eq_true_eq]
    by_cases hE : cy.getD (i % 4) "" = hh
    · rw [if_pos hE.symm, if_pos hE]
      omega
    · rw [if_neg (fun h => hE h.symm), if_neg hE]
      omega

/-- Counters of the other gender are untouched by the loop. -/
theorem assignLoop_counts_other (g : String) (cy : List String) (students : List Nat) :
    ∀ (i : Nat) (m : Nat → Option String) (c : Counts) (g' hh : String), g' ≠ g →
    (assignLoop g cy students i m c).2 g' hh = c g' hh := by
  induction students with
  | nil => intros; rfl
  | cons idx rest ih =>
    intro i m c g' hh hg
    simp only [assignLoop]
    rw [ih (i + 1) _ _ g' hh hg]
    simp [bump, hg]

/-- After the loop, the number of students holding house `hh` is the number
of loop positions whose cycle entry is `hh`. -/
theorem assignLoop_countAssigned (g : String) (cy : List String) (students : List Nat) :
    ∀ (i : Nat) (m : Nat → Option String) (c : Counts) (hh : String), students.Nodup →
    countAssigned (assignLoop g cy students i m c).1 students hh =
      ((List.range students.length).filter
        (fun t => decide (cy.getD ((i + t) % 4) "" = hh))).length := by
  induction students with
  | nil => intros; simp [assignLoop, countAssigned]
  | cons idx rest ih =>
    intro i m c hh hnd
    rw [List.nodup_cons] at hnd
    simp only [assignLoop, List.length_cons, countAssigned, List.filter_cons]
    rw [range_succ_filter_shift]
    have hidx : (assignLoop g cy rest (i + 1)
        (fun j => if j = idx then some (cy.getD (i % 4) "") else m j)
        (bump c g (cy.getD (i % 4) ""))).1 idx = some (cy.getD (i % 4) "") := by
      rw [assignLoop_apply_of_not_mem g cy rest _ _ _ idx hnd.1]
      simp
    have hrest := ih (i + 1) (fun j => if j = idx then some (cy.getD (i % 4) "") else m j)
        (bump c g (cy.getD (i % 4) "")) hh hnd.2
    simp only [countAssigned] at hrest
    have hshift : ((List.range rest.length).filter
        (fun t => decide (cy.getD ((i + 1 + t) % 4) "" = hh))).length =
      ((List.range rest.length).filter
        (fun t => decide (cy.getD ((i + (t + 1)) % 4) "" = hh))).length := by
      congr 1
      apply List.filter_congr
      intro t _
      rw [show i + 1 + t = i + (t + 1) from by omega]
    simp only [hidx, Option.some.injEq, Nat.add_zero, decide_eq_true_eq]
    by_cases hE : cy.getD (i % 4) "" = hh
    · rw [if_pos hE, if_pos hE, List.length_cons, hrest, hshift]
      omega
    · rw [if_neg hE, if_neg hE, hrest, hshift]
      omega

/-! ### Facts about groups and the groupby loop -/

theorem mem_groupIndices (df : List Row) (k : Key) (j : Nat) :
    j ∈ groupIndices df k ↔ j < df.length ∧ rowKey (df.getD j default) = k := by
  simp [groupIndices, List.mem_filter, List.mem_range]

theorem groupIndices_nodup (df : List Row) (k : Key) : (groupIndices df k).Nodup :=
  (List.nodup_range _).filter _

theorem groupIndices_disjoint (df : List Row) {k k' : Key} {j : Nat}
    (h : j ∈ groupIndices df k) (h' : j ∈ groupIndices df k') : k = k' := by
  rw [mem_groupIndices] at h h'
  rw [← h.2, h'.2]

theorem groupKeys_nodup (df : List Row) : (groupKeys df).Nodup :=
  ((List.mergeSort_perm _ _).nodup_iff).mpr (List.nodup_dedup _)

theorem groupKeys_complete (df : List Row) (i : Nat) (hi : i < df.length) :
    rowKey (df.getD i default) ∈ groupKeys df := by
  rw [groupKeys, List.mem_mergeSort, List.mem_dedup, List.getD_eq_getElem _ _ hi]
  exact List.mem_map_of_mem _ (List.getElem_mem hi)

/-- The group pass `assignGroup` does not touch positions outside its student list. -/
theorem assignGroup_apply_of_not_mem (g : String) (students : List Nat)
    (m : Nat → Option String) (c : Counts) (j : Nat) (hj : j ∉ students) :
    (assignGroup g students m c).1 j = m j :=
  assignLoop_apply_of_not_mem g _ students 0 m c j hj

/-- The group pass `assignGroup` gives every one of its students a palette house. -/
theorem assignGroup_apply_mem (g : String) (students : List Nat)
    (m : Nat → Option String) (c : Counts) (j : Nat) (hj : j ∈ students) :
    ∃ hh ∈ houses, (assignGroup g students m c).1 j = some hh :=
  assignLoop_apply_mem g _ (houseCycle_getD_mem c g students.length) students 0 m c j hj

/-- The group pass `assignGroup` leaves a position alone or writes a palette house. -/
theorem assignGroup_apply_cases (g : String) (students : List Nat)
    (m : Nat → Option String) (c : Counts) (j : Nat) :
    (assignGroup g students m c).1 j = m j ∨
      ∃ hh ∈ houses, (assignGroup g students m c).1 j = some hh :=
  assignLoop_apply_cases g _ (houseCycle_getD_mem c g students.length) students 0 m c j

/-- The groupby loop does not touch positions outside every listed group. -/
theorem assignGroups_apply_of_not_mem (df : List Row) (shuffle : Key → List Nat → List Nat)
    (ks : List Key) :
    ∀ (m : Nat → Option String) (c : Counts) (j : Nat),
    (∀ k ∈ ks, j ∉ shuffle k (groupIndices df k)) →
    (assignGroups df shuffle ks m c).1 j = m j := by
  induction ks with
  | nil => intros; rfl
  | cons k ks ih =>
    intro m c j hj
    simp only [assignGroups]
    rw [ih _ _ j (fun k' hk' => hj k' (List.mem_cons_of_mem _ hk'))]
    exact assignGroup_apply_of_not_mem _ _ _ _ _ (hj k (List.mem_cons_self _ _))

/-- The groupby loop leaves a position alone or writes a palette house. -/
theorem assignGroups_apply_cases (df : List Row) (shuffle : Key → List Nat → List Nat)
    (ks : List Key) :
    ∀ (m : Nat → Option String) (c : Counts) (j : Nat),
    (assignGroups df shuffle ks m c).1 j = m j ∨
      ∃ hh ∈ houses, (assignGroups df shuffle ks m c).1 j = some hh := by
  induction ks with
  | nil => intro m c j; left; rfl
  | cons k ks ih =>
    intro m c j
    simp only [assignGroups]
    rcases ih (assignGroup k.2.2 (shuffle k (groupIndices df k)) m c).1
        (assignGroup k.2.2 (shuffle k (groupIndices df k)) m c).2 j with h | h
    · rw [h]
      exact assignGroup_apply_cases _ _ _ _ _
    · right
      exact h

/-- Every position of a listed group receives a palette house. -/
theorem assignGroups_apply_mem (df : List Row) (shuffle : Key → List Nat → List Nat)
    (hsh : ∀ k l, (shuffle k l).Perm l) (ks : List Key) :
    ∀ (m : Nat → Option String) (c : Counts) (j : Nat) (k : Key),
    k ∈ ks → j ∈ groupIndices df k →
    ∃ hh ∈ houses, (assignGroups df shuffle ks m c).1 j = some hh := by
  induction ks with
  | nil => intro _ _ _ _ hk; simp at hk
  | cons k0 ks ih =>
    intro m c j k hk hj
    simp only [assignGroups]
    rcases List.mem_cons.mp hk with rfl | hk'
    · have hjs : j ∈ shuffle k (groupIndices df k) := ((hsh k _).mem_iff).mpr hj
      obtain ⟨hh, hhmem, hhe⟩ := assignGroup_apply_mem k.2.2 _ m c j hjs
      rcases assignGroups_apply_cases df shuffle ks
          (assignGroup k.2.2 (shuffle k (groupIndices df k)) m c).1
          (assignGroup k.2.2 (shuffle k (groupIndices df k)) m c).2 j with h2 | h2
      · exact ⟨hh, hhmem, by rw [h2, hhe]⟩
      · exact h2
    · exact ih _ _ j k hk' hj

/-! ### Counting helpers -/

theorem countAssigned_congr {m m' : Nat → Option String} {l : List Nat}
    (h : ∀ j ∈ l, m j = m' j) (hh : String) :
    countAssigned m l hh = countAssigned m' l hh := by
  unfold countAssigned
  congr 1
  apply List.filter_congr
  intro j hj
  rw [h j hj]

theorem countAssigned_perm (m : Nat → Option String) {l l' : List Nat} (h : l.Perm l')
    (hh : String) : countAssigned m l hh = countAssigned m l' hh :=
  (h.filter _).length_eq

/-- How many `t < n` have `t % 4 = j`. -/
theorem count_mod_range (j : Nat) (hj : j < 4) :
    ∀ n : Nat, ((List.range n).filter (fun t => decide (t % 4 = j))).length =
      n / 4 + (if j < n % 4 then 1 else 0)
  | 0 => by simp
  | (n + 1) => by
    rw [List.range_succ, List.filter_append, List.length_append, count_mod_range j hj n]
    by_cases hn : n % 4 = j <;> simp [hn] <;> split_ifs <;> omega

/-- Counting cycle positions that name house `hh` is counting a residue. -/
theorem houseOrder_count (c : Counts) (g : String) (n : Nat) (hh : String)
    (hmem : hh ∈ houses) :
    ∃ j : Nat, j < 4 ∧ ∀ m : Nat,
      ((List.range m).filter
        (fun t => decide ((houseCycle c g n).getD (t % 4) "" = hh))).length =
      ((List.range m).filter (fun t => decide (t % 4 = j))).length := by
  obtain ⟨j, hj, hje⟩ := List.getElem_of_mem (((houseOrder_perm c g).mem_iff).mpr hmem)
  refine ⟨j, by rw [houseOrder_length] at hj; exact hj, ?_⟩
  intro m
  congr 1
  apply List.filter_congr
  intro t _
  have h4 : t % 4 < 4 := Nat.mod_lt _ (by omega)
  rw [houseCycle_getD c g n _ h4]
  have hlt : t % 4 < (houseOrder c g).length := by rw [houseOrder_length]; exact h4
  rw [List.getD_eq_getElem _ _ hlt, decide_eq_decide]
  constructor
  · intro h
    exact ((houseOrder_nodup c g).getElem_inj_iff).mp (h.trans hje.symm)
  · intro h
    subst h
    exact hje

/-- The per-group count of `assignGroup`, phrased over its own cycle. -/
theorem assignGroup_countAssigned (g : String) (students : List Nat)
    (m : Nat → Option String) (c : Counts) (hh : String) (hnd : students.Nodup) :
    countAssigned (assignGroup g students m c).1 students hh =
      ((List.range students.length).filter
        (fun t => decide ((houseCycle c g students.length).getD (t % 4) "" = hh))).length := by
  rw [assignGroup, assignLoop_countAssigned g _ students 0 m c hh hnd]
  congr 1
  apply List.filter_congr
  intro t _
  rw [show (0 : Nat) + t = t from by omega]

/-- Within one group, any two palette houses receive counts within one of
each other. -/
theorem assignGroup_balance (g : String) (students : List Nat) (m : Nat → Option String)
    (c : Counts) (hnd : students.Nodup) (h h' : String)
    (hmem : h ∈ houses) (hmem' : h' ∈ houses) :
    countAssigned (assignGroup g students m c).1 students h ≤
      countAssigned (assignGroup g students m c).1 students h' + 1 := by
  obtain ⟨j, hj, hcnt⟩ := houseOrder_count c g students.length h hmem
  obtain ⟨j', hj', hcnt'⟩ := houseOrder_count c g students.length h' hmem'
  rw [assignGroup_countAssigned g students m c h hnd,
    assignGroup_countAssigned g students m c h' hnd,
    hcnt students.length, hcnt' students.length,
    count_mod_range j hj, count_mod_range j' hj']
  split_ifs <;> omega

/-- Within each listed group, the groupby loop keeps any two palette
houses within one of each other, whatever the starting counters. -/
theorem assignGroups_balance (df : List Row) (shuffle : Key → List Nat → List Nat)
    (hsh : ∀ k l, (shuffle k l).Perm l) (ks : List Key) :
    ∀ (m : Nat → Option String) (c : Counts) (k : Key), ks.Nodup → k ∈ ks →
    ∀ (h h' : String), h ∈ houses → h' ∈ houses →
    countAssigned (assignGroups df shuffle ks m c).1 (groupIndices df k) h ≤
      countAssigned (assignGroups df shuffle ks m c).1 (groupIndices df k) h' + 1 := by
  induction ks with
  | nil => intro _ _ _ _ hk; simp at hk
  | cons k0 ks ih =>
    intro m c k hnd hk h h' hmem hmem'
    rw [List.nodup_cons] at hnd
    simp only [assignGroups]
    rcases List.mem_cons.mp hk with rfl | hk'
    · have hpres : ∀ j ∈ groupIndices df k,
          (assignGroups df shuffle ks
            (assignGroup k.2.2 (shuffle k (groupIndices df k)) m c).1
            (assignGroup k.2.2 (shuffle k (groupIndices df k)) m c).2).1 j =
          (assignGroup k.2.2 (shuffle k (groupIndices df k)) m c).1 j := by
        intro j hj
        apply assignGroups_apply_of_not_mem
        intro k' hk' hjs
        have hj' : j ∈ groupIndices df k' := ((hsh k' _).mem_iff).mp hjs
        exact hnd.1 ((groupIndices_disjoint df hj hj') ▸ hk')
      rw [countAssigned_congr hpres h, countAssigned_congr hpres h']
      have hperm : (groupIndices df k).Perm (shuffle k (groupIndices df k)) :=
        (hsh k _).symm
      rw [countAssigned_perm _ hperm h, countAssigned_perm _ hperm h']
      exact assignGroup_balance k.2.2 _ m c
        (((hsh k _).nodup_iff).mpr (groupIndices_nodup df k)) h h' hmem hmem'
    · exact ih _ _ k hnd.2 hk' h h' hmem hmem'

/-- The per-group house count of the returned table is the count of the
assignment map over the row positions of the group. -/
theorem groupHouseCount_eq (df : List Row) (shuffle : Key → List Nat → List Nat)
    (c : Counts) (k : Key) (hh : String) :
    groupHouseCount (assign_houses df shuffle c).1 k hh =
      countAssigned (assignGroups df shuffle (groupKeys df) (fun _ => none) c).1
        (groupIndices df k) hh := by
  simp only [assign_houses, groupHouseCount]
  rw [mapIdx_eq_range_map, List.filter_map, List.length_map]
  unfold countAssigned groupIndices
  rw [List.filter_filter]
  congr 1
  apply List.filter_congr
  intro i _
  simp only [Function.comp_apply]
  rw [show rowKey { df.getD i default with
      house := (assignGroups df shuffle (groupKeys df) (fun _ => none) c).1 i } =
    rowKey (df.getD i default) from rfl]
  rw [Bool.decide_and, Bool.and_comm]

/-! ### C1: partition-local balance -/

/-- C1: in the returned table, within any `(stream, semester, gender)`
group, the number of rows assigned to one palette house exceeds the number
assigned to any other palette house by at most one — for every starting
counter state, so the global counters can only influence the starting
order of the cycle, never this partition-local balance. -/
theorem assign_houses_balanced (df : List Row) (shuffle : Key → List Nat → List Nat)
    (c : Counts) (hsh : ∀ k l, (shuffle k l).Perm l) (k : Key) (h h' : String)
    (hmem : h ∈ houses) (hmem' : h' ∈ houses) :
    groupHouseCount (assign_houses df shuffle c).1 k h ≤
      groupHouseCount (assign_houses df shuffle c).1 k h' + 1 := by
  rw [groupHouseCount_eq, groupHouseCount_eq]
  by_cases hk : k ∈ groupKeys df
  · exact assignGroups_balance df shuffle hsh (groupKeys df) _ c k
      (groupKeys_nodup df) hk h h' hmem hmem'
  · have hempty : groupIndices df k = [] := by
      rw [List.eq_nil_iff_forall_not_mem]
      intro j hj
      rw [mem_groupIndices] at hj
      exact hk (hj.2 ▸ groupKeys_complete df j hj.1)
    rw [hempty]
    simp [countAssigned]

/-- Witness for C1: a concrete table, the identity shuffle, zero counters. -/
theorem assign_houses_balanced_witness :
    (∀ k l, (idShuffle k l).Perm l) ∧ "House A" ∈ houses ∧ "House D" ∈ houses ∧
    groupHouseCount (assign_houses sampleDf idShuffle zeroCounts).1 ("CS", "1", "M") "House A" ≤
      groupHouseCount (assign_houses sampleDf idShuffle zeroCounts).1 ("CS", "1", "M") "House D" + 1 :=
  ⟨fun _ l => List.Perm.refl l, by decide, by decide,
    assign_houses_balanced sampleDf idShuffle zeroCounts (fun _ l => List.Perm.refl l)
      ("CS", "1", "M") "House A" "House D" (by decide) (by decide)⟩

/-! ### C2: every row receives one of the four houses -/

/-- C2: after `assign_houses`, every row of the returned table carries a
House value drawn from the four configured labels; no row is left
unassigned. -/
theorem assign_houses_total (df : List Row) (shuffle : Key → List Nat → List Nat)
    (c : Counts) (hsh : ∀ k l, (shuffle k l).Perm l) (i : Nat) (hi : i < df.length) :
    ∃ hh ∈ houses, ((assign_houses df shuffle c).1.getD i default).house = some hh := by
  simp only [assign_houses]
  have hlen : i < (List.mapIdx (fun i r =>
      { r with house := (assignGroups df shuffle (groupKeys df)
        (fun _ => none) c).1 i }) df).length := by
    simpa [List.length_mapIdx] using hi
  rw [List.getD_eq_getElem _ _ hlen, List.getElem_mapIdx]
  have hgi : i ∈ groupIndices df (rowKey (df.getD i default)) := by
    rw [mem_groupIndices]
    exact ⟨hi, rfl⟩
  have hkey : rowKey (df.getD i default) ∈ groupKeys df := groupKeys_complete df i hi
  obtain ⟨hh, hhmem, hhe⟩ := assignGroups_apply_mem df shuffle hsh (groupKeys df)
    (fun _ => none) c i _ hkey hgi
  exact ⟨hh, hhmem, hhe⟩

/-- Witness for C2 at a concrete table and row. -/
theorem assign_houses_total_witness :
    (∀ k l, (idShuffle k l).Perm l) ∧ 0 < sampleDf.length ∧
    ∃ hh ∈ houses, ((assign_houses sampleDf idShuffle zeroCounts).1.getD 0 default).house = some hh :=
  ⟨fun _ l => List.Perm.refl l, by decide,
    assign_houses_total sampleDf idShuffle zeroCounts (fun _ l => List.Perm.refl l) 0 (by decide)⟩

/-! ### C4: the visitation order, the cyclic assignment and the counters -/

/-- C4: in one group iteration, the visitation order is the palette sorted
ascending by the current global counters of the gender (a permutation of the
four labels, sorted by counter, ties keeping the fixed palette
iteration order); the `t`-th shuffled student receives the `t % 4`-th
house of that order; and after the group the counter of the gender for each
house grew by exactly the number of students assigned to it (one per
assignment), other genders' counters being untouched. -/
theorem assign_group_round_robin (c : Counts) (m : Nat → Option String) (g : String)
    (students : List Nat) (hnd : students.Nodup) :
    (houseOrder c g).Perm houses ∧
    (houseOrder c g).Pairwise (fun a b => c g a ≤ c g b) ∧
    (∀ a b : String, c g a = c g b → [a, b].Sublist houses →
      [a, b].Sublist (houseOrder c g)) ∧
    (∀ t, t < students.length →
      (assignGroup g students m c).1 (students.getD t 0) =
        some ((houseOrder c g).getD (t % 4) "")) ∧
    (∀ hh : String, (assignGroup g students m c).2 g hh =
      c g hh + ((List.range students.length).filter
        (fun t => decide ((houseOrder c g).getD (t % 4) "" = hh))).length) ∧
    (∀ g' hh : String, g' ≠ g → (assignGroup g students m c).2 g' hh = c g' hh) := by
  have htrans : ∀ (a b d : String), decide (c g a ≤ c g b) = true →
      decide (c g b ≤ c g d) = true → decide (c g a ≤ c g d) = true := by
    intro a b d hab hbd
    rw [decide_eq_true_eq] at hab hbd ⊢
    omega
  have htotal : ∀ (a b : String),
      (decide (c g a ≤ c g b) || decide (c g b ≤ c g a)) = true := by
    intro a b
    rcases Nat.le_total (c g a) (c g b) with h | h <;> simp [h]
  refine ⟨houseOrder_perm c g, ?_, ?_, ?_, ?_, ?_⟩
  · have hs := List.sorted_mergeSort htrans htotal houses
    exact hs.imp (fun hab => by rwa [decide_eq_true_eq] at hab)
  · intro a b hcc hsub
    exact List.pair_sublist_mergeSort htrans htotal
      (by rw [decide_eq_true_eq]; omega) hsub
  · intro t ht
    rw [assignGroup, assignLoop_apply_getD g _ students 0 m c t hnd ht]
    rw [show (0 : Nat) + t = t from by omega]
    exact congrArg some (houseCycle_getD c g students.length _ (Nat.mod_lt _ (by omega)))
  · intro hh
    rw [assignGroup, assignLoop_counts g _ students 0 m c hh]
    congr 1
    congr 1
    apply List.filter_congr
    intro t _
    rw [show (0 : Nat) + t = t from by omega]
    rw [houseCycle_getD c g students.length _ (Nat.mod_lt _ (by omega))]
  · intro g' hh hg
    rw [assignGroup]
    exact assignLoop_counts_other g _ students 0 m c g' hh hg

/-- Witness for C4 at a concrete counter state and student list. -/
theorem assign_group_round_robin_witness :
    ([2, 5, 11] : List Nat).Nodup ∧
    (houseOrder zeroCounts "M").Perm houses ∧
    (assignGroup "M" [2, 5, 11] (fun _ => none) zeroCounts).1
        (([2, 5, 11] : List Nat).getD 1 0) =
      some ((houseOrder zeroCounts "M").getD (1 % 4) "") :=
  ⟨by decide,
    (assign_group_round_robin zeroCounts (fun _ => none) "M" [2, 5, 11] (by decide)).1,
    (assign_group_round_robin zeroCounts (fun _ => none) "M" [2, 5, 11]
      (by decide)).2.2.2.1 1 (by decide)⟩

/-! ### Facts about the exporter -/

theorem houseLe_trans : ∀ a b d : Option String,
    houseLe a b = true → houseLe b d = true → houseLe a d = true := by
  intro a b d hab hbd
  cases a <;> cases b <;> cases d <;> simp_all [houseLe]
  exact le_trans hab hbd

theorem houseLe_total : ∀ a b : Option String, (houseLe a b || houseLe b a) = true := by
  intro a b
  cases a with
  | none => cases b <;> rfl
  | some x =>
    cases b with
    | none => rfl
    | some y =>
      simp only [houseLe]
      rcases le_total x y with h | h <;> simp [h]

theorem exportLe_trans : ∀ a b d : ExportRow,
    exportLe a b = true → exportLe b d = true → exportLe a d = true :=
  fun _ _ _ hab hbd => houseLe_trans _ _ _ hab hbd

theorem exportLe_total : ∀ a b : ExportRow, (exportLe a b || exportLe b a) = true :=
  fun a b => houseLe_total a.house b.house

theorem sheetName_length_le (s g : String) : (sheetName s g).length ≤ 31 := by
  rw [sheetName, String.length_append, String.length_append]
  have h1 : (String.mk (s.toList.take 25)).length ≤ 25 := by
    rw [String.length_mk, List.length_take]
    omega
  have h2 : (String.mk (g.toList.take 5)).length ≤ 5 := by
    rw [String.length_mk, List.length_take]
    omega
  have h3 : ("-" : String).length = 1 := rfl
  omega

/-! ### C8: the structure of the exported workbook -/

/-- C8: the workbook holds exactly one sheet per (stream, gender)
combination with a non-empty row set (empty combinations are skipped);
every sheet is non-empty, lists the fixed projection of the rows of its
stream-and-gender slice sorted by house label, and carries a name of
bounded length (at most 25 + 1 + 5 codepoints). -/
theorem get_excel_download_spec (df : List Row) :
    (∀ sheet ∈ get_excel_download df,
      sheet.2 ≠ [] ∧
      sheet.2.Pairwise (fun a b => exportLe a b = true) ∧
      sheet.1.length ≤ 31 ∧
      ∃ s ∈ streamsSorted df, ∃ g ∈ genderTabs,
        sheet.1 = sheetName s g ∧
        sheet.2.Perm ((df.filter (fun r =>
          decide (r.stream = s) && decide (r.gender = g))).map displayRow)) ∧
    (∀ s ∈ streamsSorted df, ∀ g ∈ genderTabs,
      df.filter (fun r => decide (r.stream = s) && decide (r.gender = g)) ≠ [] →
      ∃ sheet ∈ get_excel_download df,
        sheet.1 = sheetName s g ∧
        sheet.2 = ((df.filter (fun r =>
          decide (r.stream = s) && decide (r.gender = g))).map displayRow).mergeSort exportLe) := by
  constructor
  · intro sheet hsheet
    rw [get_excel_download, List.mem_flatMap] at hsheet
    obtain ⟨s, hs, hfm⟩ := hsheet
    rw [List.mem_filterMap] at hfm
    obtain ⟨g, hg, heq⟩ := hfm
    by_cases hempty :
        (df.filter (fun r => decide (r.stream = s) && decide (r.gender = g))).isEmpty
    · rw [if_pos hempty] at heq
      exact absurd heq (by simp)
    · rw [if_neg hempty] at heq
      have hne : df.filter (fun r => decide (r.stream = s) && decide (r.gender = g)) ≠ [] :=
        fun hnil => hempty (by rw [hnil]; rfl)
      obtain rfl := Option.some.inj heq
      refine ⟨?_, ?_, sheetName_length_le s g, s, hs, g, hg, rfl, List.mergeSort_perm _ _⟩
      · intro hnil
        have := congrArg List.length hnil
        rw [List.length_mergeSort, List.length_map] at this
        exact hne (List.length_eq_zero.mp this)
      · exact List.sorted_mergeSort exportLe_trans exportLe_total _
  · intro s hs g hg hne
    refine ⟨(sheetName s g,
      ((df.filter (fun r => decide (r.stream = s) && decide (r.gender = g))).map
        displayRow).mergeSort exportLe), ?_, rfl, rfl⟩
    rw [get_excel_download, List.mem_flatMap]
    refine ⟨s, hs, ?_⟩
    rw [List.mem_filterMap]
    refine ⟨g, hg, ?_⟩
    rw [if_neg (fun hempty => hne (List.isEmpty_iff.mp hempty))]

/-- Witness for C8: a concrete table with a non-empty (stream, gender)
combination. -/
theorem get_excel_download_spec_witness :
    "CS" ∈ streamsSorted sampleDf ∧ "M" ∈ genderTabs ∧
    ∃ sheet ∈ get_excel_download sampleDf,
      sheet.1 = sheetName "CS" "M" ∧
      sheet.2 = ((sampleDf.filter (fun r =>
        decide (r.stream = "CS") && decide (r.gender = "M"))).map displayRow).mergeSort exportLe :=
  ⟨by simp [streamsSorted, sampleDf, sampleRow], by decide,
    (get_excel_download_spec sampleDf).2 "CS" (by simp [streamsSorted, sampleDf, sampleRow])
      "M" (by decide) (by decide)⟩

/-! ### C3: the export round trip -/

/-- Partitioning a list by a key over a duplicate-free, covering key list
is a permutation of the list. -/
theorem flatMap_filter_key_perm {α κ : Type} [DecidableEq κ] (key : α → κ) :
    ∀ (ks : List κ) (l : List α), ks.Nodup → (∀ a ∈ l, key a ∈ ks) →
    (ks.flatMap (fun k => l.filter (fun a => decide (key a = k)))).Perm l := by
  intro ks
  induction ks with
  | nil =>
    intro l _ hcov
    have hl : l = [] := by
      rw [List.eq_nil_iff_forall_not_mem]
      intro a ha
      exact absurd (hcov a ha) (List.not_mem_nil _)
    subst hl
    exact List.Perm.refl _
  | cons k ks ih =>
    intro l hnd hcov
    rw [List.nodup_cons] at hnd
    rw [List.flatMap_cons]
    refine List.Perm.trans (List.Perm.append_left _ ?_)
      (List.filter_append_perm (fun a => decide (key a = k)) l)
    have hcongr : ∀ k' ∈ ks,
        l.filter (fun a => decide (key a = k')) =
          (l.filter (fun a => !decide (key a = k))).filter
            (fun a => decide (key a = k')) := by
      intro k' hk'
      rw [List.filter_filter]
      apply List.filter_congr
      intro a _
      by_cases h : key a = k'
      · have hkk' : ¬ k' = k := by
          intro he
          exact hnd.1 (he ▸ hk')
        simp [h, hkk']
      · simp [h]
    have hstep : (ks.flatMap (fun k' => List.filter (fun a => decide (key a = k')) l)).Perm
        (ks.flatMap (fun k' => List.filter (fun a => decide (key a = k'))
          (List.filter (fun a => !decide (key a = k)) l))) :=
      List.Perm.flatMap_left ks (fun k' hk' => by rw [← hcongr k' hk'])
    refine List.Perm.trans hstep ?_
    apply ih
    · exact hnd.2
    · intro a ha
      rw [List.mem_filter] at ha
      rcases List.mem_cons.mp (hcov a ha.1) with h | h
      · exfalso
        have hb := ha.2
        rw [h] at hb
        simp at hb
      · exact h

/-- The (enrollment, house) pairs of a sorted, projected sheet are a
permutation of the pairs of its source rows. -/
theorem sortedSheet_pairs_perm (l : List Row) :
    (((l.map displayRow).mergeSort exportLe).map
        (fun er => (er.enrollment, er.house))).Perm
      (l.map (fun r => (r.enrollment, r.house))) := by
  refine ((List.mergeSort_perm (l.map displayRow) exportLe).map _).trans ?_
  rw [List.map_map]
  exact List.Perm.refl _

/-- Rewriting a conjunction-of-`decide`s row filter as a key filter. -/
theorem filter_pair_eq (df : List Row) (s g : String) :
    df.filter (fun r => decide (r.stream = s) && decide (r.gender = g)) =
      df.filter (fun r => decide ((r.stream, r.gender) = (s, g))) := by
  apply List.filter_congr
  intro r _
  by_cases h1 : r.stream = s <;> by_cases h2 : r.gender = g <;> simp [h1, h2]

/-- C3 (counterexample): re-reading the workbook is not always faithful —
a row whose gender is neither `"M"` nor `"F"` is written to no sheet, so
its (enrollment, house) pair is lost. -/
theorem export_roundtrip_counterexample :
    ¬ (readPairs (get_excel_download strayDf)).Perm (tablePairs strayDf) := by
  intro hperm
  have hstreams : streamsSorted strayDf = ["CS"] := by
    simp [streamsSorted, strayDf]
  have hempty : get_excel_download strayDf = [] := by
    rw [get_excel_download, hstreams]
    simp [genderTabs, strayDf]
  rw [hempty] at hperm
  have hlen := hperm.length_eq
  simp [readPairs, tablePairs, strayDf] at hlen

/-- C3 (amended): for tables in which the gender of every row is `"M"` or
`"F"`, exporting and re-reading the workbook yields exactly the in-memory
(enrollment identifier, house) pairs, as a multiset. -/
theorem export_roundtrip (df : List Row)
    (hg : ∀ r ∈ df, r.gender = "M" ∨ r.gender = "F") :
    (readPairs (get_excel_download df)).Perm (tablePairs df) := by
  simp only [readPairs, get_excel_download, tablePairs]
  rw [List.flatMap_assoc]
  have hstep1 : ∀ s ∈ streamsSorted df,
      ((genderTabs.filterMap (fun g =>
        if (df.filter (fun r => decide (r.stream = s) && decide (r.gender = g))).isEmpty then
          none
        else some (sheetName s g,
          ((df.filter (fun r => decide (r.stream = s) && decide (r.gender = g))).map
            displayRow).mergeSort exportLe))).flatMap
        (fun sheet => sheet.2.map (fun er => (er.enrollment, er.house)))).Perm
      ((df.filter (fun r => decide (r.stream = s) && decide (r.gender = "M"))).map
          (fun r => (r.enrollment, r.house)) ++
        (df.filter (fun r => decide (r.stream = s) && decide (r.gender = "F"))).map
          (fun r => (r.enrollment, r.house))) := by
    intro s _
    simp only [genderTabs, List.filterMap_cons, List.filterMap_nil]
    by_cases hM :
        (df.filter (fun r => decide (r.stream = s) && decide (r.gender = "M"))).isEmpty <;>
      by_cases hF :
        (df.filter (fun r => decide (r.stream = s) && decide (r.gender = "F"))).isEmpty
    · rw [if_pos hM, if_pos hF]
      dsimp only
      rw [List.isEmpty_iff] at hM hF
      rw [hM, hF]
      simp
    · rw [if_pos hM, if_neg hF]
      dsimp only
      simp only [List.flatMap_cons, List.flatMap_nil, List.append_nil]
      rw [List.isEmpty_iff] at hM
      rw [hM]
      simpa using sortedSheet_pairs_perm
        (df.filter (fun r => decide (r.stream = s) && decide (r.gender = "F")))
    · rw [if_neg hM, if_pos hF]
      dsimp only
      simp only [List.flatMap_cons, List.flatMap_nil, List.append_nil]
      rw [List.isEmpty_iff] at hF
      rw [hF]
      simpa using sortedSheet_pairs_perm
        (df.filter (fun r => decide (r.stream = s) && decide (r.gender = "M")))
    · rw [if_neg hM, if_neg hF]
      dsimp only
      simp only [List.flatMap_cons, List.flatMap_nil, List.append_nil]
      exact List.Perm.append (sortedSheet_pairs_perm _) (sortedSheet_pairs_perm _)
  refine (List.Perm.flatMap_left _ hstep1).trans ?_
  have hrw : (streamsSorted df).flatMap (fun s =>
      (df.filter (fun r => decide (r.stream = s) && decide (r.gender = "M"))).map
        (fun r => (r.enrollment, r.house)) ++
      (df.filter (fun r => decide (r.stream = s) && decide (r.gender = "F"))).map
        (fun r => (r.enrollment, r.house))) =
    (((streamsSorted df).flatMap (fun s => [(s, "M"), (s, "F")])).flatMap
      (fun k => df.filter (fun r => decide ((r.stream, r.gender) = k)))).map
        (fun r => (r.enrollment, r.house)) := by
    rw [List.map_flatMap, List.flatMap_assoc]
    congr 1
    funext s
    simp only [List.flatMap_cons, List.flatMap_nil, List.append_nil]
    rw [filter_pair_eq df s "M", filter_pair_eq df s "F"]
  rw [hrw]
  apply List.Perm.map
  apply flatMap_filter_key_perm (fun r : Row => (r.stream, r.gender))
  · rw [List.nodup_flatMap]
    constructor
    · intro s _
      simp
    · have hnd : (streamsSorted df).Nodup :=
        ((List.mergeSort_perm _ _).nodup_iff).mpr (List.nodup_dedup _)
      refine hnd.imp ?_
      intro s s' hne x hx hx'
      simp only [List.mem_cons, List.not_mem_nil, or_false] at hx hx'
      rcases hx with rfl | rfl <;> rcases hx' with h | h <;> simp_all
  · intro r hr
    rw [List.mem_flatMap]
    refine ⟨r.stream, ?_, ?_⟩
    · rw [streamsSorted, List.mem_mergeSort, List.mem_dedup]
      exact List.mem_map_of_mem _ hr
    · rcases hg r hr with h | h <;> simp [h]

/-- Witness for the amended C3 at a concrete all-M/F table. -/
theorem export_roundtrip_witness :
    (∀ r ∈ sampleDf, r.gender = "M" ∨ r.gender = "F") ∧
    (readPairs (get_excel_download sampleDf)).Perm (tablePairs sampleDf) :=
  ⟨by decide, export_roundtrip sampleDf (by decide)⟩

/-- Witness for C9 at a concrete table and row. -/
theorem assign_houses_frame_witness :
    0 < sampleDf.length ∧
    ((assign_houses sampleDf idShuffle zeroCounts).1.length = sampleDf.length ∧
      eraseHouse ((assign_houses sampleDf idShuffle zeroCounts).1.getD 0 default) =
        eraseHouse (sampleDf.getD 0 default)) :=
  ⟨by decide, assign_houses_frame sampleDf idShuffle zeroCounts 0 (by decide)⟩

end NfsuGoa
